import Mathlib

/-!
Shallow embedding of `LLDB_Formatters/templates/static/common.js`: browser-side
glue for a graph visualizer (theme toggling, icon injection, PNG export, node
search/highlight, color reset, info-panel toggle).  The mutable browser state
(DOM elements, `localStorage`, the rendering-engine handle and its node/edge
DataSets) is modelled as an explicit `PageState` record and each JS function
becomes a state transformer.  `Except` results model a JS exception escaping a
call.
-/

/-- Nested theme sub-object of `colorPalette` (`dark`/`light` entries). -/
structure ThemeColors where
  text : String
  surface : String
  border : String
deriving DecidableEq

/-- Shape of the `colorPalette` constant object in common.js. -/
structure ColorPalette where
  nodeDefault : String
  nodeBorder : String
  nodeSelected : String
  nodeSelectedBorder : String
  nodeHighlighted : String
  nodeHighlightedBorder : String
  nodeAnimated : String
  nodeAnimatedBorder : String
  nodeSearchResult : String
  nodeSearchBorder : String
  nodeHover : String
  edgeDefault : String
  edgeSelected : String
  edgeHighlighted : String
  textDefault : String
  blue : String
  purple : String
  red : String
  orange : String
  green : String
  dark : ThemeColors
  light : ThemeColors
deriving DecidableEq

/-- The Tokyo Night color palette (common.js lines 5-42). -/
def colorPalette : ColorPalette :=
  { nodeDefault := "#7aa2f7"
    nodeBorder := "#565f89"
    nodeSelected := "#bb9af7"
    nodeSelectedBorder := "#9d7cd8"
    nodeHighlighted := "#e0af68"
    nodeHighlightedBorder := "#c49a61"
    nodeAnimated := "#9ece6a"
    nodeAnimatedBorder := "#73a84c"
    nodeSearchResult := "#f7768e"
    nodeSearchBorder := "#e06b83"
    nodeHover := "#9ece6a"
    edgeDefault := "#565f89"
    edgeSelected := "#bb9af7"
    edgeHighlighted := "#e0af68"
    textDefault := "#ffffffff"
    blue := "#7aa2f7"
    purple := "#bb9af7"
    red := "#f7768e"
    orange := "#e0af68"
    green := "#9ece6a"
    dark := { text := "#c0caf5", surface := "#24283b", border := "#414868" }
    light := { text := "#1a1b26", surface := "#c0caf5", border := "#a9b1d6" } }

/-- The `theme` entry of `svgIcons` (used again by `updateThemeButton`). -/
def svgTheme : String := "<svg xmlns=\"http://www.w3.org/2000/svg\" viewBox=\"0 0 24 24\"><path d=\"M21 12.79A9 9 0 1 1 11.21 3 7 7 0 0 0 21 12.79z\"></path></svg>"

/-- The fixed icon registry `svgIcons` (common.js lines 45-57), in object
insertion order as iterated by `Object.entries`. -/
def svgIcons : List (String × String) := [
  ("theme", svgTheme),
  ("expand", "<svg xmlns=\"http://www.w3.org/2000/svg\" viewBox=\"0 0 24 24\"><path d=\"M14 2H6a2 2 0 0 0-2 2v16a2 2 0 0 0 2 2h12a2 2 0 0 0 2-2V8z\"></path><polyline points=\"14 2 14 8 20 8\"></polyline><line x1=\"12\" y1=\"18\" x2=\"12\" y2=\"12\"></line><line x1=\"9\" y1=\"15\" x2=\"15\" y2=\"15\"></line></svg>"),
  ("collapse", "<svg xmlns=\"http://www.w3.org/2000/svg\" viewBox=\"0 0 24 24\"><path d=\"M14 2H6a2 2 0 0 0-2 2v16a2 2 0 0 0 2 2h12a2 2 0 0 0 2-2V8z\"></path><polyline points=\"14 2 14 8 20 8\"></polyline><line x1=\"9\" y1=\"15\" x2=\"15\" y2=\"15\"></line></svg>"),
  ("center", "<svg xmlns=\"http://www.w3.org/2000/svg\" viewBox=\"0 0 24 24\"><circle cx=\"12\" cy=\"12\" r=\"3\"></circle><line x1=\"12\" y1=\"1\" x2=\"12\" y2=\"4\"></line><line x1=\"12\" y1=\"20\" x2=\"12\" y2=\"23\"></line><line x1=\"4\" y1=\"12\" x2=\"1\" y2=\"12\"></line><line x1=\"23\" y1=\"12\" x2=\"20\" y2=\"12\"></line><line x1=\"19.07\" y1=\"4.93\" x2=\"16.95\" y2=\"7.05\"></line><line x1=\"7.05\" y1=\"16.95\" x2=\"4.93\" y2=\"19.07\"></line><line x1=\"19.07\" y1=\"19.07\" x2=\"16.95\" y2=\"16.95\"></line><line x1=\"7.05\" y1=\"7.05\" x2=\"4.93\" y2=\"4.93\"></line></svg>"),
  ("clear", "<svg xmlns=\"http://www.w3.org/2000/svg\" viewBox=\"0 0 24 24\" fill=\"none\" stroke=\"currentColor\" stroke-width=\"2\" stroke-linecap=\"round\" stroke-linejoin=\"round\"><path d=\"M21 4H8l-7 8 7 8h13a2 2 0 0 0 2-2V6a2 2 0 0 0-2-2z\"></path><line x1=\"18\" y1=\"9\" x2=\"12\" y2=\"15\"></line><line x1=\"12\" y1=\"9\" x2=\"18\" y2=\"15\"></line></svg>"),
  ("png", "<svg xmlns=\"http://www.w3.org/2000/svg\" viewBox=\"0 0 24 24\"><rect x=\"3\" y=\"3\" width=\"18\" height=\"18\" rx=\"2\" ry=\"2\"></rect><circle cx=\"8.5\" cy=\"8.5\" r=\"1.5\"></circle><polyline points=\"21 15 16 10 5 21\"></polyline></svg>"),
  ("json", "<svg xmlns=\"http://www.w3.org/2000/svg\" viewBox=\"0 0 24 24\"><polyline points=\"16 18 22 12 16 6\"></polyline><polyline points=\"8 6 2 12 8 18\"></polyline></svg>"),
  ("play", "<svg xmlns=\"http://www.w3.org/2000/svg\" viewBox=\"0 0 24 24\"><polygon points=\"5 3 19 12 5 21 5 3\"></polygon></svg>"),
  ("pause", "<svg xmlns=\"http://www.w3.org/2000/svg\" viewBox=\"0 0 24 24\"><rect x=\"6\" y=\"4\" width=\"4\" height=\"16\"></rect><rect x=\"14\" y=\"4\" width=\"4\" height=\"16\"></rect></svg>"),
  ("stop", "<svg xmlns=\"http://www.w3.org/2000/svg\" viewBox=\"0 0 24 24\"><rect x=\"4\" y=\"4\" width=\"16\" height=\"16\"></rect></svg>"),
  ("step", "<svg xmlns=\"http://www.w3.org/2000/svg\" viewBox=\"0 0 24 24\"><polygon points=\"5 4 15 12 5 20 5 4\"></polygon><line x1=\"19\" y1=\"5\" x2=\"19\" y2=\"19\"></line></svg>")
]

-- ----- String primitives used by the JS code ----- --

/-- `leadsWith s l`: the char list `s` is an initial run of `l`. -/
def leadsWith : List Char → List Char → Bool
  | [], _ => true
  | _ :: _, [] => false
  | a :: as, b :: bs => a == b && leadsWith as bs

/-- `hasSub s l`: the char list `s` occurs contiguously inside `l`. -/
def hasSub : List Char → List Char → Bool
  | s, [] => s.isEmpty
  | s, b :: bs => leadsWith s (b :: bs) || hasSub s bs

/-- Model of JS `hay.includes(sub)`. -/
def strIncludes (hay sub : String) : Bool := hasSub sub.data hay.data

/-- Model of JS `String.prototype.toLowerCase`. -/
def jsToLower (s : String) : String := s.toLower

/-- Whitespace characters removed by JS `String.prototype.trim` (ASCII part). -/
def isWs (c : Char) : Bool := c == ' ' || c == '\t' || c == '\n' || c == '\r'

/-- Trim of a char list: drop whitespace from both ends. -/
def trimChars (l : List Char) : List Char :=
  ((l.dropWhile isWs).reverse.dropWhile isWs).reverse

/-- Model of JS `String.prototype.trim`. -/
def jsTrim (s : String) : String := ⟨trimChars s.data⟩

/-- Scanner for the text content of an HTML fragment: characters between `<`
and `>` belong to a tag and are dropped; the Bool is the in-tag state.  The
markup handled here (the SVG icon strings and the injected span wrapper) has
no entities and no angle brackets inside attribute values, so this is a
faithful model of DOM `textContent` after an `innerHTML` assignment. -/
def sGo : List Char → Bool → List Char
  | [], _ => []
  | c :: cs, inTag =>
    if c == '<' then sGo cs true
    else if c == '>' then sGo cs false
    else if inTag then sGo cs true
    else c :: sGo cs false

/-- In-tag state after scanning a char list. -/
def tagSt : List Char → Bool → Bool
  | [], t => t
  | c :: cs, t => tagSt cs (if c == '<' then true else if c == '>' then false else t)

/-- Model of reading `element.textContent` when `innerHTML` is `s`. -/
def stripTags (s : String) : String := ⟨sGo s.data false⟩

-- ----- Data model: records of the external node/edge DataSets ----- --

/-- Node color object `{ background, border }` as written by this file. -/
structure NodeColor where
  background : String
  border : String
deriving DecidableEq

/-- Edge color object `{ color }` as written by this file. -/
structure EdgeColor where
  color : String
deriving DecidableEq

/-- A record of the externally owned node collection. -/
structure NodeRec where
  id : Nat
  label : String
  title : Option String
  color : NodeColor
deriving DecidableEq

/-- A record of the externally owned edge collection. -/
structure EdgeRec where
  id : Nat
  color : EdgeColor
deriving DecidableEq

/-- A partial-update entry `{ id, color }` passed to `nodes.update`. -/
structure NodeUpd where
  id : Nat
  color : NodeColor
deriving DecidableEq

/-- A partial-update entry `{ id, color }` passed to `edges.update`. -/
structure EdgeUpd where
  id : Nat
  color : EdgeColor
deriving DecidableEq

/-- Log entry recording one `update(list)` call issued to a collection. -/
inductive UpdateEvent where
  | nodesUpd (us : List NodeUpd)
  | edgesUpd (us : List EdgeUpd)
deriving DecidableEq

/-- `network.canvas.frame`: its `canvas.toDataURL()` result is a data field. -/
structure NetFrame where
  canvasDataURL : String
deriving DecidableEq

/-- `network.canvas`. -/
structure NetCanvas where
  frame : Option NetFrame
deriving DecidableEq

/-- The rendering-engine handle (`network` global). -/
structure Network where
  canvas : Option NetCanvas
  selection : List Nat
deriving DecidableEq

/-- The `toggle-info-btn` element: `info-visible` class, innerHTML, title. -/
structure InfoBtn where
  infoVisible : Bool
  innerHTML : String
  title : String
deriving DecidableEq

/-- A browser download triggered by a programmatic link click. -/
structure Download where
  name : String
  href : String
deriving DecidableEq

/-- The whole mutable browser state seen by common.js. `none` collections or
elements model an absent global / missing DOM element; `storage = none`
models an unavailable `localStorage` (access throws). -/
structure PageState where
  network : Option Network
  nodes : Option (List NodeRec)
  edges : Option (List EdgeRec)
  storage : Option (List (String × String))
  storageReads : Nat
  lightTheme : Bool
  themeButton : Option String
  buttons : List (String × String)
  infoBox : Option Bool
  infoToggleBtn : Option InfoBtn
  nodeInfoDisplay : Option String
  downloads : List Download
  errorLog : List String
  warnLog : List String
  updateLog : List UpdateEvent
deriving DecidableEq

-- ----- localStorage / DOM primitives ----- --

/-- Lookup in an association list (models `localStorage.getItem`, keyed DOM). -/
def lookupKV (kv : List (String × String)) (k : String) : Option String :=
  match kv with
  | [] => none
  | p :: ps => if p.1 == k then some p.2 else lookupKV ps k

/-- Model of `localStorage.setItem`: overwrite the key or append it. -/
def setKV (kv : List (String × String)) (k v : String) : List (String × String) :=
  if kv.any (fun p => p.1 == k) then
    kv.map (fun p => if p.1 == k then (p.1, v) else p)
  else kv ++ [(k, v)]

/-- Replace the content of the first element with the given id (the element
`getElementById` returns). -/
def setFirst (bs : List (String × String)) (bid html : String) : List (String × String) :=
  match bs with
  | [] => []
  | b :: rest => if b.1 == bid then (b.1, html) :: rest else b :: setFirst rest bid html

-- ----- vis DataSet `update` semantics (external collaborator) ----- --

/-- Apply one update entry: merge into the record with that id when it
exists, otherwise create a new record. -/
def dataStepN (ds : List NodeRec) (u : NodeUpd) : List NodeRec :=
  if ds.any (fun d => d.id == u.id) then
    ds.map (fun d => if d.id == u.id then { d with color := u.color } else d)
  else ds ++ [{ id := u.id, label := "", title := none, color := u.color }]

/-- `nodes.update(list)`. -/
def dataSetUpdateN (ds : List NodeRec) (us : List NodeUpd) : List NodeRec :=
  us.foldl dataStepN ds

/-- Apply one edge update entry, as `dataStepN`. -/
def dataStepE (ds : List EdgeRec) (u : EdgeUpd) : List EdgeRec :=
  if ds.any (fun d => d.id == u.id) then
    ds.map (fun d => if d.id == u.id then { d with color := u.color } else d)
  else ds ++ [{ id := u.id, color := u.color }]

/-- `edges.update(list)`. -/
def dataSetUpdateE (ds : List EdgeRec) (us : List EdgeUpd) : List EdgeRec :=
  us.foldl dataStepE ds

-- ----- Palette entries used by the reset/search routines ----- --

/-- `{ background: colorPalette.nodeDefault, border: colorPalette.nodeBorder }`. -/
def defNodeColor : NodeColor :=
  { background := colorPalette.nodeDefault, border := colorPalette.nodeBorder }

/-- `{ background: nodeSearchResult, border: nodeSearchBorder }`. -/
def searchNodeColor : NodeColor :=
  { background := colorPalette.nodeSearchResult, border := colorPalette.nodeSearchBorder }

/-- `{ color: colorPalette.edgeDefault }`. -/
def defEdgeColor : EdgeColor := { color := colorPalette.edgeDefault }

-- ----- The functions of common.js ----- --

/-- The innerHTML written by `applyIcons` for one button. -/
def iconHTML (svg text : String) : String :=
  "<span class=\"button-icon\">" ++ svg ++ "</span> " ++ text

/-- One iteration of the `applyIcons` loop for the entry `kv = (key, svg)`:
if `btn-<key>` exists, read its trimmed text content and rewrite its
innerHTML to the icon followed by that text (common.js lines 64-73). -/
def applyStep (bs : List (String × String)) (kv : String × String) : List (String × String) :=
  match lookupKV bs ("btn-" ++ kv.1) with
  | none => bs
  | some cur => setFirst bs ("btn-" ++ kv.1) (iconHTML kv.2 (jsTrim (stripTags cur)))

/-- `applyIcons()` (common.js lines 64-73). -/
def applyIcons (st : PageState) : PageState :=
  { st with buttons := svgIcons.foldl applyStep st.buttons }

/-- The label written by `updateThemeButton`. -/
def themeButtonHTML (isLight : Bool) : String :=
  "<span class=\"button-icon\">" ++ svgTheme ++ "</span> Switch to "
    ++ (if isLight then "Dark" else "Light") ++ " Theme"

/-- `updateThemeButton(isLight)` (common.js lines 95-101). -/
def updateThemeButton (isLight : Bool) (st : PageState) : PageState :=
  match st.themeButton with
  | none => st
  | some _ => { st with themeButton := some (themeButtonHTML isLight) }

/-- The value persisted for a mode. -/
def themeVal (isLight : Bool) : String := if isLight then "light" else "dark"

/-- Warning printed when `localStorage` is unavailable. -/
def storageWarnMsg : String := "localStorage not available for theme persistence"

/-- `toggleTheme()` (common.js lines 78-89). -/
def toggleTheme (st : PageState) : PageState :=
  let isLight := !st.lightTheme
  let st1 := { st with lightTheme := isLight }
  let st2 :=
    match st1.storage with
    | some kv => { st1 with storage := some (setKV kv "theme" (themeVal isLight)) }
    | none => { st1 with warnLog := st1.warnLog ++ [storageWarnMsg] }
  updateThemeButton isLight st2

/-- The auto-executing theme-load function (common.js lines 106-124),
synchronous part: read the saved theme once (a throwing store leaves the
default `"dark"` and logs a warning; a missing or empty value falls back to
`"dark"` through `||`), then add the light class exactly when the result is
`"light"`.  The `DOMContentLoaded` callback it registers is modelled by
`themeLoadDomReady`. -/
def themeLoad (st : PageState) : PageState :=
  match st.storage with
  | none =>
    { st with storageReads := st.storageReads + 1,
              warnLog := st.warnLog ++ [storageWarnMsg] }
  | some kv =>
    let st1 := { st with storageReads := st.storageReads + 1 }
    let savedTheme :=
      match lookupKV kv "theme" with
      | none => "dark"
      | some v => if v == "" then "dark" else v
    if savedTheme == "light" then { st1 with lightTheme := true } else st1

/-- The `DOMContentLoaded` callback registered by the theme-load function. -/
def themeLoadDomReady (isLight : Bool) (st : PageState) : PageState :=
  applyIcons (updateThemeButton isLight st)

/-- The two fully determined states `toggleInfoBox` writes to the toggle
button, keyed by the panel's hidden flag after the flip. -/
def infoBtnFor (hidden : Bool) : InfoBtn :=
  if hidden then { infoVisible := false, innerHTML := "⚙️", title := "Show Info Panel" }
  else { infoVisible := true, innerHTML := "➡️", title := "Hide Info Panel" }

/-- `toggleInfoBox()` (common.js lines 129-145). -/
def toggleInfoBox (st : PageState) : PageState :=
  match st.infoBox, st.infoToggleBtn with
  | some hidden, some _ =>
    let h := !hidden
    { st with infoBox := some h, infoToggleBtn := some (infoBtnFor h) }
  | _, _ => st

/-- The `DOMContentLoaded` initial-UI-state handler (common.js lines 296-305). -/
def initialUIState (st : PageState) : PageState :=
  match st.infoBox, st.infoToggleBtn with
  | some _, some _ => { st with infoBox := some true, infoToggleBtn := some (infoBtnFor true) }
  | _, _ => st

/-- Error printed when the canvas is unavailable for PNG export. -/
def pngErrMsg : String := "Network canvas not available for PNG export"

/-- `exportPNG()` (common.js lines 150-161).  The `Except` layer models a JS
exception escaping the call; every path returns `.ok`. -/
def exportPNG (st : PageState) : Except String PageState :=
  match st.network with
  | none => .ok { st with errorLog := st.errorLog ++ [pngErrMsg] }
  | some nw =>
    match nw.canvas with
    | none => .ok { st with errorLog := st.errorLog ++ [pngErrMsg] }
    | some cv =>
      match cv.frame with
      | none => .ok { st with errorLog := st.errorLog ++ [pngErrMsg] }
      | some fr =>
        .ok { st with downloads := st.downloads ++
                [{ name := "visualization.png", href := fr.canvasDataURL }] }

/-- `hideNodeInfo()` (common.js lines 201-204). -/
def hideNodeInfo (st : PageState) : PageState :=
  match st.nodeInfoDisplay with
  | none => st
  | some _ => { st with nodeInfoDisplay := some "none" }

/-- The node-update batch built by `resetColors` from `nodes.getIds()`
(common.js lines 212-218). -/
def resetNodeUpds (ns : List NodeRec) : List NodeUpd :=
  (ns.map (fun n => n.id)).map (fun i => ({ id := i, color := defNodeColor } : NodeUpd))

/-- The edge-update batch built by `resetColors` from `edges.getIds()`
(common.js lines 221-224). -/
def resetEdgeUpds (es : List EdgeRec) : List EdgeUpd :=
  (es.map (fun e => e.id)).map (fun i => ({ id := i, color := defEdgeColor } : EdgeUpd))

/-- `resetColors()` (common.js lines 209-226). -/
def resetColors (st : PageState) : PageState :=
  match st.nodes, st.edges with
  | some ns, some es =>
    let nodeUpdates := resetNodeUpds ns
    let st1 :=
      if nodeUpdates.length > 0 then
        { st with nodes := some (dataSetUpdateN ns nodeUpdates),
                  updateLog := st.updateLog ++ [UpdateEvent.nodesUpd nodeUpdates] }
      else st
    let edgeUpdates := resetEdgeUpds es
    if edgeUpdates.length > 0 then
      { st1 with edges := some (dataSetUpdateE es edgeUpdates),
                 updateLog := st1.updateLog ++ [UpdateEvent.edgesUpd edgeUpdates] }
    else st1
  | _, _ => st

/-- `clearSelection()` (common.js lines 190-196). -/
def clearSelection (st : PageState) : PageState :=
  match st.network with
  | none => st
  | some nw => hideNodeInfo (resetColors { st with network := some { nw with selection := [] } })

/-- The filter predicate passed to `nodes.get` by `searchNodes`
(common.js lines 250-253). -/
def nodeMatches (query : String) (n : NodeRec) : Bool :=
  strIncludes (jsToLower n.label) (jsToLower query) ||
  (match n.title with
   | none => false
   | some t => !(t == "") && strIncludes (jsToLower t) (jsToLower query))

/-- `searchNodes(query)` (common.js lines 243-266). -/
def searchNodes (query : String) (st : PageState) : PageState :=
  match st.nodes with
  | none => st
  | some _ =>
    let st1 := resetColors st
    if jsTrim query == "" then st1
    else
      match st1.nodes with
      | none => st1
      | some ns =>
        let matchingNodes := ns.filter (nodeMatches query)
        if matchingNodes.length > 0 then
          let updates := matchingNodes.map
            (fun n => ({ id := n.id, color := searchNodeColor } : NodeUpd))
          { st1 with nodes := some (dataSetUpdateN ns updates),
                     updateLog := st1.updateLog ++ [UpdateEvent.nodesUpd updates] }
        else st1

-- ----- Concrete states used to evaluate the theorems ----- --

/-- A concrete page state with everything absent/empty. -/
def emptyPage : PageState :=
  { network := none, nodes := none, edges := none, storage := none,
    storageReads := 0, lightTheme := false, themeButton := none, buttons := [],
    infoBox := none, infoToggleBtn := none, nodeInfoDisplay := none,
    downloads := [], errorLog := [], warnLog := [], updateLog := [] }

/-- A rendering-engine handle whose canvas is missing. -/
def noCanvasNet : Network := { canvas := none, selection := [] }

-- ----- Helper lemmas on lists and DataSet updates ----- --

/-- Shorthand: a node recolored to the default palette entry. -/
def setDefN (n : NodeRec) : NodeRec := { n with color := defNodeColor }

/-- Shorthand: an edge recolored to the default palette entry. -/
def setDefE (e : EdgeRec) : EdgeRec := { e with color := defEdgeColor }

/-- The state produced by `resetColors` on present collections. -/
def resetRecord (st : PageState) (ns : List NodeRec) (es : List EdgeRec) : PageState :=
  { st with
    nodes := some (ns.map setDefN),
    edges := some (es.map setDefE),
    updateLog := (st.updateLog
      ++ (if ns.length > 0 then [UpdateEvent.nodesUpd (resetNodeUpds ns)] else []))
      ++ (if es.length > 0 then [UpdateEvent.edgesUpd (resetEdgeUpds es)] else []) }

/-- The node/edge color state of the page. -/
def colorView (st : PageState) : Option (List NodeRec) × Option (List EdgeRec) :=
  (st.nodes, st.edges)

/-- The pure action of `resetColors` on the color state. -/
def resetView :
    Option (List NodeRec) × Option (List EdgeRec) →
    Option (List NodeRec) × Option (List EdgeRec)
  | (some ns, some es) => (some (ns.map setDefN), some (es.map setDefE))
  | v => v

/-- Number of node-collection update calls recorded in a log. -/
def countNodeEvts (l : List UpdateEvent) : Nat :=
  (l.filter (fun ev => match ev with | .nodesUpd _ => true | .edgesUpd _ => false)).length

/-- Number of edge-collection update calls recorded in a log. -/
def countEdgeEvts (l : List UpdateEvent) : Nat :=
  (l.filter (fun ev => match ev with | .nodesUpd _ => false | .edgesUpd _ => true)).length

/-- A node with a non-default color, for concrete evaluations. -/
def nodeA : NodeRec :=
  { id := 1, label := "head", title := none,
    color := { background := "#000000", border := "#000000" } }

/-- A concrete page whose graph has one oddly-colored node and no edges. -/
def graphPage : PageState :=
  { emptyPage with nodes := some [nodeA], edges := some [] }

/-- A second node, matching the query "tail" by label, with distinct id. -/
def nodeB : NodeRec :=
  { id := 2, label := "Tail", title := some "the tail node",
    color := { background := "#111111", border := "#111111" } }

/-- A concrete page with two nodes for search evaluations. -/
def searchPage : PageState :=
  { emptyPage with nodes := some [nodeA, nodeB], edges := some [] }

-- ----- Identity preservation of the issued updates (C9) ----- --

/-- Ids of an optional node collection. -/
def idsN (o : Option (List NodeRec)) : Option (List Nat) :=
  o.map (List.map (fun n => n.id))

/-- Ids of an optional edge collection. -/
def idsE (o : Option (List EdgeRec)) : Option (List Nat) :=
  o.map (List.map (fun e => e.id))

/-- An update event is keyed entirely by ids already present. -/
def evtOk (nids eids : List Nat) : UpdateEvent → Prop
  | .nodesUpd us => ∀ u ∈ us, u.id ∈ nids
  | .edgesUpd us => ∀ u ∈ us, u.id ∈ eids

/-- The update batch built by `searchNodes` for a query. -/
def searchUpds (ns : List NodeRec) (q : String) : List NodeUpd :=
  ((ns.map setDefN).filter (nodeMatches q)).map
    (fun n => ({ id := n.id, color := searchNodeColor } : NodeUpd))

/-- The raw value persisted under key `"theme"`. -/
def storedTheme (st : PageState) : Option String :=
  st.storage.bind (fun kv => lookupKV kv "theme")

/-- A freshly loaded page: store available but no "theme" key yet. -/
def freshThemePage : PageState :=
  { emptyPage with storage := some [] }

/-- A page whose info panel starts hidden with the matching button state, as
established by the initial-UI-state handler. -/
def infoPage : PageState :=
  { emptyPage with infoBox := some true, infoToggleBtn := some (infoBtnFor true) }

/-- The pointwise action of one `applyIcons` iteration on a button entry. -/
def stepFun (kv : String × String) (p : String × String) : String × String :=
  if p.1 == ("btn-" ++ kv.1) then (p.1, iconHTML kv.2 (jsTrim (stripTags p.2))) else p

/-- The icon for a control id: the first registry entry targeting `i`. -/
def keyIcon : List (String × String) → String → Option String
  | [], _ => none
  | kv :: rest, i => if ("btn-" ++ kv.1) == i then some kv.2 else keyIcon rest i

/-- The entrywise action of the whole icon loop. -/
def iconTrans (ks : List (String × String)) (p : String × String) : String × String :=
  match keyIcon ks p.1 with
  | none => p
  | some svg => (p.1, iconHTML svg (jsTrim (stripTags p.2)))

/-- Plain text-only button content: no markup and already trimmed. -/
def plainContent (s : String) : Prop :=
  (∀ c ∈ s.data, c ≠ '<' ∧ c ≠ '>') ∧ jsTrim s = s

/-- A page with two text-labelled icon controls. -/
def iconPage : PageState :=
  { emptyPage with buttons := [("btn-theme", "Theme"), ("btn-png", "PNG")] }

-- ----- Theorems ----- --

-- ----- Claim theorems ----- --

/-- C10: if the rendering-engine handle is absent (falsy), `clearSelection` is
a complete no-op: it does not clear the selection, does not reset any node or
edge colors, and does not hide the node-info panel. -/
theorem clearSelection_no_network_noop (st : PageState) (h : st.network = none) :
    clearSelection st = st := by
  unfold clearSelection
  rw [h]

theorem clearSelection_no_network_noop_witness :
    clearSelection { emptyPage with
      nodes := some [{ id := 1, label := "n", title := none,
                       color := { background := "x", border := "y" } }],
      nodeInfoDisplay := some "block" } =
    { emptyPage with
      nodes := some [{ id := 1, label := "n", title := none,
                       color := { background := "x", border := "y" } }],
      nodeInfoDisplay := some "block" } :=
  clearSelection_no_network_noop _ rfl

/-- C3: when the rendering-engine handle (or its canvas/frame) is absent,
`exportPNG` triggers no download, lets no exception escape (the result is
`.ok`), and its only observable effect is appending one logged error. -/
theorem exportPNG_missing_handle (st : PageState)
    (h : st.network = none ∨
      ∃ nw, st.network = some nw ∧
        (nw.canvas = none ∨ ∃ cv, nw.canvas = some cv ∧ cv.frame = none)) :
    exportPNG st = .ok { st with errorLog := st.errorLog ++ [pngErrMsg] } := by
  rcases h with h | ⟨nw, hnw, h | ⟨cv, hcv, hfr⟩⟩
  · simp [exportPNG, h]
  · simp [exportPNG, hnw, h]
  · simp [exportPNG, hnw, hcv, hfr]

theorem exportPNG_missing_handle_witness :
    exportPNG { emptyPage with network := some noCanvasNet } =
      .ok { emptyPage with network := some noCanvasNet, errorLog := [pngErrMsg] } :=
  exportPNG_missing_handle _ (Or.inr ⟨_, rfl, Or.inl rfl⟩)

theorem listMapCongr {α β : Type} {l : List α} {f g : α → β}
    (h : ∀ a ∈ l, f a = g a) : l.map f = l.map g := by
  induction l with
  | nil => rfl
  | cons a t ih =>
    simp only [List.map_cons]
    rw [h a (by simp), ih (fun x hx => h x (by simp [hx]))]

theorem filterOverMap {α β : Type} (l : List α) (f : α → β) (p : β → Bool) :
    (l.map f).filter p = (l.filter (fun a => p (f a))).map f := by
  induction l with
  | nil => rfl
  | cons a t ih =>
    by_cases h : p (f a) = true <;> simp [List.filter_cons, h, ih]

/-- A batch of updates that all carry the same color and whose ids all occur
in the collection acts as a pointwise recoloring map (no record is created). -/
theorem dataSetUpdateN_eq_map (c : NodeColor) :
    ∀ (us : List NodeUpd) (ds : List NodeRec),
      (∀ u ∈ us, u.color = c) →
      (∀ u ∈ us, ds.any (fun d => d.id == u.id) = true) →
      dataSetUpdateN ds us =
        ds.map (fun d => if us.any (fun u => d.id == u.id) then { d with color := c } else d)
  | [], ds, _, _ => by simp [dataSetUpdateN]
  | u :: rest, ds, hc, hid => by
    have hu : ds.any (fun d => d.id == u.id) = true := hid u (by simp)
    have hcu : u.color = c := hc u (by simp)
    have hstep : dataStepN ds u =
        ds.map (fun d => if d.id == u.id then { d with color := c } else d) := by
      unfold dataStepN
      rw [hu, hcu]
      simp
    have hidp : ∀ d : NodeRec,
        ((if d.id == u.id then { d with color := c } else d) : NodeRec).id = d.id := by
      intro d; split <;> rfl
    have hcomp : ∀ v : NodeUpd,
        ((fun d : NodeRec => d.id == v.id) ∘
          (fun d : NodeRec => if d.id == u.id then { d with color := c } else d)) =
        (fun d : NodeRec => d.id == v.id) := by
      intro v; funext d; simp only [Function.comp_apply, hidp]
    have hrec := dataSetUpdateN_eq_map c rest (dataStepN ds u)
      (fun v hv => hc v (List.mem_cons_of_mem _ hv))
      (fun v hv => by
        rw [hstep, List.any_map, hcomp v]
        exact hid v (List.mem_cons_of_mem _ hv))
    have hfold : dataSetUpdateN ds (u :: rest) = dataSetUpdateN (dataStepN ds u) rest := rfl
    rw [hfold, hrec, hstep, List.map_map]
    apply listMapCongr
    intro d _
    by_cases hA : (d.id == u.id) = true
    · have hA2 : d.id = u.id := by simpa using hA
      simp [hA2]
    · have hA2 : ¬(d.id = u.id) := by simpa using hA
      simp [hA2]

/-- Edge version of `dataSetUpdateN_eq_map`. -/
theorem dataSetUpdateE_eq_map (c : EdgeColor) :
    ∀ (us : List EdgeUpd) (ds : List EdgeRec),
      (∀ u ∈ us, u.color = c) →
      (∀ u ∈ us, ds.any (fun d => d.id == u.id) = true) →
      dataSetUpdateE ds us =
        ds.map (fun d => if us.any (fun u => d.id == u.id) then { d with color := c } else d)
  | [], ds, _, _ => by simp [dataSetUpdateE]
  | u :: rest, ds, hc, hid => by
    have hu : ds.any (fun d => d.id == u.id) = true := hid u (by simp)
    have hcu : u.color = c := hc u (by simp)
    have hstep : dataStepE ds u =
        ds.map (fun d => if d.id == u.id then { d with color := c } else d) := by
      unfold dataStepE
      rw [hu, hcu]
      simp
    have hidp : ∀ d : EdgeRec,
        ((if d.id == u.id then { d with color := c } else d) : EdgeRec).id = d.id := by
      intro d; split <;> rfl
    have hcomp : ∀ v : EdgeUpd,
        ((fun d : EdgeRec => d.id == v.id) ∘
          (fun d : EdgeRec => if d.id == u.id then { d with color := c } else d)) =
        (fun d : EdgeRec => d.id == v.id) := by
      intro v; funext d; simp only [Function.comp_apply, hidp]
    have hrec := dataSetUpdateE_eq_map c rest (dataStepE ds u)
      (fun v hv => hc v (List.mem_cons_of_mem _ hv))
      (fun v hv => by
        rw [hstep, List.any_map, hcomp v]
        exact hid v (List.mem_cons_of_mem _ hv))
    have hfold : dataSetUpdateE ds (u :: rest) = dataSetUpdateE (dataStepE ds u) rest := rfl
    rw [hfold, hrec, hstep, List.map_map]
    apply listMapCongr
    intro d _
    by_cases hA : (d.id == u.id) = true
    · have hA2 : d.id = u.id := by simpa using hA
      simp [hA2]
    · have hA2 : ¬(d.id = u.id) := by simpa using hA
      simp [hA2]

theorem resetNodeUpds_apply (ns : List NodeRec) :
    dataSetUpdateN ns (resetNodeUpds ns) = ns.map setDefN := by
  rw [dataSetUpdateN_eq_map defNodeColor]
  · apply listMapCongr
    intro d hd
    have hmem : ({ id := d.id, color := defNodeColor } : NodeUpd) ∈ resetNodeUpds ns := by
      simp only [resetNodeUpds, List.map_map, List.mem_map]
      exact ⟨d, hd, rfl⟩
    have hany : (resetNodeUpds ns).any (fun u => d.id == u.id) = true :=
      List.any_eq_true.mpr ⟨_, hmem, by simp⟩
    simp [hany, setDefN]
  · intro u hu
    simp only [resetNodeUpds, List.mem_map] at hu
    obtain ⟨i, _, rfl⟩ := hu
    rfl
  · intro u hu
    simp only [resetNodeUpds, List.map_map, List.mem_map] at hu
    obtain ⟨n, hn, rfl⟩ := hu
    simp only [List.any_eq_true, Function.comp_apply]
    exact ⟨n, hn, by simp⟩

theorem resetEdgeUpds_apply (es : List EdgeRec) :
    dataSetUpdateE es (resetEdgeUpds es) = es.map setDefE := by
  rw [dataSetUpdateE_eq_map defEdgeColor]
  · apply listMapCongr
    intro d hd
    have hmem : ({ id := d.id, color := defEdgeColor } : EdgeUpd) ∈ resetEdgeUpds es := by
      simp only [resetEdgeUpds, List.map_map, List.mem_map]
      exact ⟨d, hd, rfl⟩
    have hany : (resetEdgeUpds es).any (fun u => d.id == u.id) = true :=
      List.any_eq_true.mpr ⟨_, hmem, by simp⟩
    simp [hany, setDefE]
  · intro u hu
    simp only [resetEdgeUpds, List.mem_map] at hu
    obtain ⟨i, _, rfl⟩ := hu
    rfl
  · intro u hu
    simp only [resetEdgeUpds, List.map_map, List.mem_map] at hu
    obtain ⟨e, he, rfl⟩ := hu
    simp only [List.any_eq_true, Function.comp_apply]
    exact ⟨e, he, by simp⟩

theorem resetNodeUpds_length (ns : List NodeRec) : (resetNodeUpds ns).length = ns.length := by
  simp [resetNodeUpds]

theorem resetEdgeUpds_length (es : List EdgeRec) : (resetEdgeUpds es).length = es.length := by
  simp [resetEdgeUpds]

/-- Full characterization of `resetColors` when both collections exist. -/
theorem resetColors_char (st : PageState) (ns : List NodeRec) (es : List EdgeRec)
    (hn : st.nodes = some ns) (he : st.edges = some es) :
    resetColors st = resetRecord st ns es := by
  unfold resetRecord
  unfold resetColors
  rw [hn, he]
  by_cases h1 : 0 < ns.length <;> by_cases h2 : 0 < es.length <;>
    simp_all [resetNodeUpds_length, resetEdgeUpds_length,
      resetNodeUpds_apply, resetEdgeUpds_apply,
      List.length_eq_zero, List.length_pos]
  rw [← hn, ← he]

/-- `resetColors` is a complete no-op when either collection is absent. -/
theorem resetColors_absent (st : PageState) (h : st.nodes = none ∨ st.edges = none) :
    resetColors st = st := by
  rcases h with h | h
  · cases he : st.edges <;> simp [resetColors, h, he]
  · cases hn : st.nodes <;> simp [resetColors, h, hn]

theorem setDefN_comp : setDefN ∘ setDefN = setDefN := funext fun _ => rfl

theorem setDefE_comp : setDefE ∘ setDefE = setDefE := funext fun _ => rfl

theorem colorView_resetColors (st : PageState) :
    colorView (resetColors st) = resetView (colorView st) := by
  cases hn : st.nodes <;> cases he : st.edges
  · rw [resetColors_absent st (Or.inl hn)]; simp [colorView, resetView, hn, he]
  · rw [resetColors_absent st (Or.inl hn)]; simp [colorView, resetView, hn, he]
  · rw [resetColors_absent st (Or.inr he)]; simp [colorView, resetView, hn, he]
  · rw [resetColors_char st _ _ hn he]; simp [colorView, resetView, resetRecord, hn, he]

theorem resetView_idem (v : Option (List NodeRec) × Option (List EdgeRec)) :
    resetView (resetView v) = resetView v := by
  rcases v with ⟨n, e⟩
  cases n <;> cases e <;>
    simp [resetView, List.map_map, setDefN_comp, setDefE_comp]

theorem colorView_reset_iter (st : PageState) : ∀ k : Nat,
    colorView (resetColors^[k + 1] st) = colorView (resetColors st)
  | 0 => rfl
  | k + 1 => by
    rw [Function.iterate_succ_apply', colorView_resetColors,
      colorView_reset_iter st k, colorView_resetColors, resetView_idem]

/-- After `resetColors` on present collections, every node and edge carries
the default palette entry. -/
theorem resetColors_all_default (st : PageState) (ns : List NodeRec) (es : List EdgeRec)
    (hn : st.nodes = some ns) (he : st.edges = some es) :
    (∀ ns', (resetColors st).nodes = some ns' → ∀ n ∈ ns', n.color = defNodeColor) ∧
    (∀ es', (resetColors st).edges = some es' → ∀ e ∈ es', e.color = defEdgeColor) := by
  rw [resetColors_char st ns es hn he]
  unfold resetRecord
  constructor
  · intro ns' hns' n hmem
    obtain rfl := (Option.some.inj hns').symm
    obtain ⟨m, _, rfl⟩ := List.mem_map.mp hmem
    rfl
  · intro es' hes' e hmem
    obtain rfl := (Option.some.inj hes').symm
    obtain ⟨m, _, rfl⟩ := List.mem_map.mp hmem
    rfl

/-- C6: `resetColors` is idempotent: one call followed by any further sequence
of `resetColors` calls yields the same final color state of every node and
edge as a single call (every node set to the default node palette entry,
every edge to the default edge palette entry); it is a complete no-op if
either collection is absent, and it skips the update call for a collection
that is empty. -/
theorem resetColors_spec (st : PageState) :
    (∀ k : Nat, colorView (resetColors^[k + 1] st) = colorView (resetColors st)) ∧
    (st.nodes = none ∨ st.edges = none → resetColors st = st) ∧
    (∀ ns es, st.nodes = some ns → st.edges = some es →
      ((∀ ns', (resetColors st).nodes = some ns' → ∀ n ∈ ns', n.color = defNodeColor) ∧
       (∀ es', (resetColors st).edges = some es' → ∀ e ∈ es', e.color = defEdgeColor)) ∧
      (ns = [] → countNodeEvts (resetColors st).updateLog = countNodeEvts st.updateLog) ∧
      (es = [] → countEdgeEvts (resetColors st).updateLog = countEdgeEvts st.updateLog)) := by
  refine ⟨colorView_reset_iter st, resetColors_absent st, ?_⟩
  intro ns es hn he
  refine ⟨resetColors_all_default st ns es hn he, ?_, ?_⟩
  all_goals rw [resetColors_char st ns es hn he]; unfold resetRecord
  · intro hns0
    subst hns0
    by_cases h2 : 0 < es.length <;>
      simp [countNodeEvts, List.filter_append, h2]
  · intro hes0
    subst hes0
    by_cases h1 : 0 < ns.length <;>
      simp [countEdgeEvts, List.filter_append, h1]

theorem resetColors_spec_witness :
    colorView (resetColors^[2] graphPage) = colorView (resetColors graphPage) ∧
    (∀ ns', (resetColors graphPage).nodes = some ns' → ∀ n ∈ ns', n.color = defNodeColor) ∧
    countEdgeEvts (resetColors graphPage).updateLog = countEdgeEvts graphPage.updateLog := by
  obtain ⟨h1, _, h3⟩ := resetColors_spec graphPage
  exact ⟨h1 1, (h3 [nodeA] [] rfl rfl).1.1, (h3 [nodeA] [] rfl rfl).2.2 rfl⟩

/-- With the node collection present and a blank query, `searchNodes` is
exactly the `resetColors` pass (the blank check comes after the reset). -/
theorem searchNodes_blank (st : PageState) (ns : List NodeRec)
    (hn : st.nodes = some ns) (q : String) (hq : jsTrim q = "") :
    searchNodes q st = resetColors st := by
  unfold searchNodes
  rw [hn]
  simp [hq]

/-- C2: for a query that is empty or whitespace-only, `searchNodes` leaves
every node's color equal to the default node palette entry and every edge's
color equal to the default edge palette entry. -/
theorem searchNodes_blank_default (st : PageState) (ns : List NodeRec) (es : List EdgeRec)
    (hn : st.nodes = some ns) (he : st.edges = some es) (q : String) (hq : jsTrim q = "") :
    (∀ ns', (searchNodes q st).nodes = some ns' → ∀ n ∈ ns', n.color = defNodeColor) ∧
    (∀ es', (searchNodes q st).edges = some es' → ∀ e ∈ es', e.color = defEdgeColor) := by
  rw [searchNodes_blank st ns hn q hq]
  exact resetColors_all_default st ns es hn he

theorem searchNodes_blank_default_witness :
    (∀ ns', (searchNodes "  " graphPage).nodes = some ns' →
      ∀ n ∈ ns', n.color = defNodeColor) ∧
    (∀ es', (searchNodes "  " graphPage).edges = some es' →
      ∀ e ∈ es', e.color = defEdgeColor) :=
  searchNodes_blank_default graphPage [nodeA] [] rfl rfl "  " (by decide)

/-- The search filter ignores a node's color. -/
theorem nodeMatches_setDefN (q : String) (n : NodeRec) :
    nodeMatches q (setDefN n) = nodeMatches q n := rfl

/-- With distinct ids, membership of `m.id` among the ids of the matching
sublist decides exactly whether `m` itself matches. -/
theorem filter_any_id (ns : List NodeRec) (p : NodeRec → Bool) (m : NodeRec)
    (hm : m ∈ ns) (hnd : (ns.map (fun n => n.id)).Nodup) :
    ((ns.filter p).any (fun n => m.id == n.id)) = p m := by
  cases hp : p m
  · apply Bool.eq_false_iff.mpr
    intro hcontra
    obtain ⟨x, hx, hxid⟩ := List.any_eq_true.mp hcontra
    obtain ⟨hxns, hpx⟩ := List.mem_filter.mp hx
    have hmx : m.id = x.id := by simpa using hxid
    have hxm : m = x := List.inj_on_of_nodup_map hnd hm hxns hmx
    rw [← hxm] at hpx
    rw [hp] at hpx
    exact Bool.false_ne_true hpx
  · apply List.any_eq_true.mpr
    exact ⟨m, List.mem_filter.mpr ⟨hm, hp⟩, by simp⟩

/-- `any` over a (type-changing) mapped list. -/
theorem anyOverMap {α β : Type} (l : List α) (f : α → β) (p : β → Bool) :
    (l.map f).any p = l.any (fun a => p (f a)) := by
  induction l with
  | nil => rfl
  | cons a t ih => simp [List.any_cons, ih]

/-- C1: for a non-blank query (and present collections with distinct node
ids), `searchNodes` recolors exactly the nodes whose label, or whose title
when present, contains the query case-insensitively: each match gets the
search-result palette entry and every other node is left at the default
palette entry. -/
theorem searchNodes_exact (st : PageState) (ns : List NodeRec) (es : List EdgeRec)
    (hn : st.nodes = some ns) (he : st.edges = some es) (q : String)
    (hq : jsTrim q ≠ "") (hnd : (ns.map (fun n => n.id)).Nodup) :
    (searchNodes q st).nodes = some (ns.map (fun n =>
      if nodeMatches q n then { n with color := searchNodeColor }
      else { n with color := defNodeColor })) ∧
    (∀ ns', (searchNodes q st).nodes = some ns' → ∀ n ∈ ns',
      (nodeMatches q n = true → n.color = searchNodeColor) ∧
      (nodeMatches q n = false → n.color = defNodeColor)) := by
  have hbeq : (jsTrim q == "") = false := beq_eq_false_iff_ne.mpr hq
  have hpred : (fun a => nodeMatches q (setDefN a)) = nodeMatches q :=
    funext fun a => rfl
  have hmain : (searchNodes q st).nodes = some (ns.map (fun n =>
      if nodeMatches q n then { n with color := searchNodeColor }
      else { n with color := defNodeColor })) := by
    unfold searchNodes
    rw [hn]
    simp only [hbeq, Bool.false_eq_true, if_false]
    rw [resetColors_char st ns es hn he]
    unfold resetRecord
    simp only []
    rw [apply_ite PageState.nodes]
    simp only []
    rw [filterOverMap ns setDefN (nodeMatches q), hpred]
    by_cases hf : ((ns.filter (nodeMatches q)).map setDefN).length > 0
    · rw [if_pos hf]
      apply congrArg
      rw [dataSetUpdateN_eq_map searchNodeColor]
      · rw [List.map_map]
        apply listMapCongr
        intro m hm
        have hany : (((ns.filter (nodeMatches q)).map setDefN).map
            (fun n => ({ id := n.id, color := searchNodeColor } : NodeUpd))).any
            (fun u => (setDefN m).id == u.id) = nodeMatches q m := by
          rw [anyOverMap, anyOverMap]
          exact filter_any_id ns (nodeMatches q) m hm hnd
        simp only [Function.comp_apply, hany]
        cases hpm : nodeMatches q m <;> simp [hpm, setDefN]
      · intro u hu
        obtain ⟨x, _, rfl⟩ := List.mem_map.mp hu
        rfl
      · intro u hu
        obtain ⟨x, hx, rfl⟩ := List.mem_map.mp hu
        obtain ⟨y, hy, rfl⟩ := List.mem_map.mp hx
        apply List.any_eq_true.mpr
        refine ⟨setDefN y, List.mem_map.mpr ⟨y, List.mem_of_mem_filter hy, rfl⟩, by simp⟩
    · rw [if_neg hf]
      simp only [List.length_map] at hf
      have hfe : ns.filter (nodeMatches q) = [] := by
        cases hfil : ns.filter (nodeMatches q) with
        | nil => rfl
        | cons a t => rw [hfil] at hf; simp at hf
      apply congrArg
      apply listMapCongr
      intro m hm
      have hpm : nodeMatches q m = false := by
        have hnotp := List.filter_eq_nil_iff.mp hfe m hm
        cases h : nodeMatches q m
        · rfl
        · exact absurd h hnotp
      rw [hpm]
      simp [setDefN]
  refine ⟨hmain, ?_⟩
  intro ns' hns' n hnmem
  rw [hmain] at hns'
  obtain rfl := (Option.some.inj hns').symm
  obtain ⟨m, hm, rfl⟩ := List.mem_map.mp hnmem
  have hcolinv : ∀ c : NodeColor,
      nodeMatches q ({ m with color := c } : NodeRec) = nodeMatches q m :=
    fun c => rfl
  cases hpm : nodeMatches q m <;> simp [hpm, hcolinv]

theorem searchNodes_exact_witness :
    (searchNodes "tail" searchPage).nodes = some ([nodeA, nodeB].map (fun n =>
      if nodeMatches "tail" n then { n with color := searchNodeColor }
      else { n with color := defNodeColor })) ∧
    (∀ ns', (searchNodes "tail" searchPage).nodes = some ns' → ∀ n ∈ ns',
      (nodeMatches "tail" n = true → n.color = searchNodeColor) ∧
      (nodeMatches "tail" n = false → n.color = defNodeColor)) :=
  searchNodes_exact searchPage [nodeA, nodeB] [] rfl rfl "tail" (by decide) (by decide)

theorem mem_if_single {α : Type} {c : Prop} [Decidable c] {x ev : α}
    (h : ev ∈ (if c then [x] else [])) : ev = x := by
  split at h
  · simpa using h
  · simp at h

theorem evtOk_resetNodes (ns : List NodeRec) (eids : List Nat) :
    evtOk (ns.map (fun n => n.id)) eids (UpdateEvent.nodesUpd (resetNodeUpds ns)) := by
  intro u hu
  simp only [resetNodeUpds, List.map_map, List.mem_map] at hu
  obtain ⟨n, hn', rfl⟩ := hu
  exact List.mem_map.mpr ⟨n, hn', rfl⟩

theorem evtOk_resetEdges (nids : List Nat) (es : List EdgeRec) :
    evtOk nids (es.map (fun e => e.id)) (UpdateEvent.edgesUpd (resetEdgeUpds es)) := by
  intro u hu
  simp only [resetEdgeUpds, List.map_map, List.mem_map] at hu
  obtain ⟨e, he', rfl⟩ := hu
  exact List.mem_map.mpr ⟨e, he', rfl⟩

/-- The identity-preservation facts for one `resetColors` call. -/
theorem resetColors_ids_part (st : PageState) (ns : List NodeRec) (es : List EdgeRec)
    (hn : st.nodes = some ns) (he : st.edges = some es) :
    idsN (resetColors st).nodes = idsN st.nodes ∧
    idsE (resetColors st).edges = idsE st.edges ∧
    ∃ new, (resetColors st).updateLog = st.updateLog ++ new ∧
      ∀ ev ∈ new, evtOk (ns.map (fun n => n.id)) (es.map (fun e => e.id)) ev := by
  rw [resetColors_char st ns es hn he]
  unfold resetRecord
  refine ⟨?_, ?_, ?_⟩
  · rw [hn]
    show some ((ns.map setDefN).map (fun n => n.id)) = some (ns.map (fun n => n.id))
    rw [List.map_map]
    exact rfl
  · rw [he]
    show some ((es.map setDefE).map (fun e => e.id)) = some (es.map (fun e => e.id))
    rw [List.map_map]
    exact rfl
  · refine ⟨(if ns.length > 0 then [UpdateEvent.nodesUpd (resetNodeUpds ns)] else []) ++
      (if es.length > 0 then [UpdateEvent.edgesUpd (resetEdgeUpds es)] else []), ?_, ?_⟩
    · show (st.updateLog ++ _) ++ _ = _
      rw [List.append_assoc]
    · intro ev hev
      rcases List.mem_append.mp hev with hA | hB
      · rw [mem_if_single hA]
        exact evtOk_resetNodes ns _
      · rw [mem_if_single hB]
        exact evtOk_resetEdges _ es

/-- Characterization of `searchNodes` for a non-blank query. -/
theorem searchNonblankChar (st : PageState) (ns : List NodeRec) (es : List EdgeRec)
    (hn : st.nodes = some ns) (he : st.edges = some es) (q : String)
    (hq2 : (jsTrim q == "") = false) :
    searchNodes q st =
      (if ((ns.map setDefN).filter (nodeMatches q)).length > 0 then
        { resetRecord st ns es with
          nodes := some (dataSetUpdateN (ns.map setDefN) (searchUpds ns q)),
          updateLog := (resetRecord st ns es).updateLog ++
            [UpdateEvent.nodesUpd (searchUpds ns q)] }
      else resetRecord st ns es) := by
  unfold searchNodes
  rw [hn]
  simp only [hq2, Bool.false_eq_true, if_false]
  rw [resetColors_char st ns es hn he]
  rfl

/-- C9: every color update issued by this file (by `resetColors` and by
`searchNodes`) preserves record identity: the id sequences of both
collections are unchanged and every logged update batch is keyed by ids
already present, so no update ever creates a new node or edge record. -/
theorem updates_preserve_identity (st : PageState) (ns : List NodeRec) (es : List EdgeRec)
    (hn : st.nodes = some ns) (he : st.edges = some es) :
    (idsN (resetColors st).nodes = idsN st.nodes ∧
     idsE (resetColors st).edges = idsE st.edges ∧
     ∃ new, (resetColors st).updateLog = st.updateLog ++ new ∧
       ∀ ev ∈ new, evtOk (ns.map (fun n => n.id)) (es.map (fun e => e.id)) ev) ∧
    (∀ q, idsN (searchNodes q st).nodes = idsN st.nodes ∧
       idsE (searchNodes q st).edges = idsE st.edges ∧
       ∃ new, (searchNodes q st).updateLog = st.updateLog ++ new ∧
         ∀ ev ∈ new, evtOk (ns.map (fun n => n.id)) (es.map (fun e => e.id)) ev) := by
  refine ⟨resetColors_ids_part st ns es hn he, ?_⟩
  intro q
  by_cases hqb : (jsTrim q == "") = true
  · have hq : jsTrim q = "" := by simpa using hqb
    rw [searchNodes_blank st ns hn q hq]
    exact resetColors_ids_part st ns es hn he
  · have hq2 : (jsTrim q == "") = false := by
      cases hb : (jsTrim q == "")
      · rfl
      · exact absurd hb hqb
    rw [searchNonblankChar st ns es hn he q hq2]
    by_cases hf : ((ns.map setDefN).filter (nodeMatches q)).length > 0
    · rw [if_pos hf]
      have hc : ∀ u ∈ searchUpds ns q, u.color = searchNodeColor := by
        intro u hu
        obtain ⟨x, _, rfl⟩ := List.mem_map.mp hu
        rfl
      have hid : ∀ u ∈ searchUpds ns q,
          ((ns.map setDefN).any (fun d => d.id == u.id)) = true := by
        intro u hu
        obtain ⟨x, hx, rfl⟩ := List.mem_map.mp hu
        apply List.any_eq_true.mpr
        exact ⟨x, List.mem_of_mem_filter hx, by simp⟩
      have hsearchOk : evtOk (ns.map (fun n => n.id)) (es.map (fun e => e.id))
          (UpdateEvent.nodesUpd (searchUpds ns q)) := by
        intro u hu
        obtain ⟨x, hx, rfl⟩ := List.mem_map.mp hu
        obtain ⟨y, hy, rfl⟩ := List.mem_map.mp (List.mem_of_mem_filter hx)
        exact List.mem_map.mpr ⟨y, hy, rfl⟩
      refine ⟨?_, ?_, ?_⟩
      · show some ((dataSetUpdateN (ns.map setDefN) (searchUpds ns q)).map (fun n => n.id))
          = idsN st.nodes
        rw [dataSetUpdateN_eq_map searchNodeColor (searchUpds ns q) (ns.map setDefN) hc hid,
          hn]
        show some _ = some (ns.map (fun n => n.id))
        apply congrArg
        rw [List.map_map, List.map_map]
        apply listMapCongr
        intro m _
        simp only [Function.comp_apply]
        split <;> rfl
      · show some ((es.map setDefE).map (fun e => e.id)) = idsE st.edges
        rw [he]
        show some _ = some (es.map (fun e => e.id))
        rw [List.map_map]
        exact rfl
      · refine ⟨((if ns.length > 0 then [UpdateEvent.nodesUpd (resetNodeUpds ns)] else []) ++
          (if es.length > 0 then [UpdateEvent.edgesUpd (resetEdgeUpds es)] else [])) ++
          [UpdateEvent.nodesUpd (searchUpds ns q)], ?_, ?_⟩
        · show ((st.updateLog ++ _) ++ _) ++ _ = _
          rw [List.append_assoc, List.append_assoc, List.append_assoc]
        · intro ev hev
          rcases List.mem_append.mp hev with hAB | hS
          · rcases List.mem_append.mp hAB with hA | hB
            · rw [mem_if_single hA]
              exact evtOk_resetNodes ns _
            · rw [mem_if_single hB]
              exact evtOk_resetEdges _ es
          · have : ev = UpdateEvent.nodesUpd (searchUpds ns q) := by simpa using hS
            rw [this]
            exact hsearchOk
    · rw [if_neg hf, ← resetColors_char st ns es hn he]
      exact resetColors_ids_part st ns es hn he

theorem updates_preserve_identity_witness :
    idsN (resetColors searchPage).nodes = idsN searchPage.nodes ∧
    idsN (searchNodes "tail" searchPage).nodes = idsN searchPage.nodes :=
  ⟨(updates_preserve_identity searchPage [nodeA, nodeB] [] rfl rfl).1.1,
   ((updates_preserve_identity searchPage [nodeA, nodeB] [] rfl rfl).2 "tail").1⟩

-- ----- Theme persistence (C8, C5) ----- --

/-- C8: at load the theme preference is read exactly once from the durable
store; when the stored value is absent or the store is unavailable the
applied theme stays dark (the light-theme class is not added), and store
unavailability produces only a logged warning. -/
theorem themeLoad_spec (st : PageState) :
    ((themeLoad st).storageReads = st.storageReads + 1) ∧
    (st.storage = none →
      themeLoad st = { st with storageReads := st.storageReads + 1,
                               warnLog := st.warnLog ++ [storageWarnMsg] }) ∧
    (∀ kv, st.storage = some kv → lookupKV kv "theme" = none →
      themeLoad st = { st with storageReads := st.storageReads + 1 }) ∧
    ((st.storage = none ∨ (∃ kv, st.storage = some kv ∧ lookupKV kv "theme" = none)) →
      (themeLoad st).lightTheme = st.lightTheme) := by
  refine ⟨?_, ?_, ?_, ?_⟩
  · unfold themeLoad
    cases hs : st.storage with
    | none => rfl
    | some kv =>
      cases hk : lookupKV kv "theme" with
      | none =>
        simp only [hk]
        rw [if_neg (by decide)]
      | some v => simp [hk, apply_ite PageState.storageReads]
  · intro h
    unfold themeLoad
    rw [h]
  · intro kv hkv hlook
    unfold themeLoad
    rw [hkv]
    simp only [hlook]
    rw [if_neg (by decide)]
  · intro h
    rcases h with h | ⟨kv, hkv, hlook⟩
    · unfold themeLoad
      rw [h]
    · unfold themeLoad
      rw [hkv]
      simp only [hlook]
      rw [if_neg (by decide)]

theorem themeLoad_spec_witness :
    (themeLoad emptyPage).storageReads = emptyPage.storageReads + 1 ∧
    themeLoad emptyPage = { emptyPage with storageReads := 1, warnLog := [storageWarnMsg] } ∧
    (themeLoad emptyPage).lightTheme = emptyPage.lightTheme := by
  obtain ⟨h1, h2, _, h4⟩ := themeLoad_spec emptyPage
  exact ⟨h1, h2 rfl, h4 (Or.inl rfl)⟩

/-- C5 counterexample: on a fresh page (store available, no saved key, dark
mode), two `toggleTheme` calls change the value stored under "theme" from
absent to `"dark"`, so the persisted raw value is not returned to its
original state. -/
theorem toggleTheme_twice_counterexample :
    storedTheme (toggleTheme (toggleTheme freshThemePage)) ≠ storedTheme freshThemePage := by
  decide

theorem lookupKV_setKV : ∀ (kv : List (String × String)) (k v : String),
    lookupKV (setKV kv k v) k = some v
  | [], k, v => by simp [setKV, lookupKV]
  | p :: ps, k, v => by
    have ih := lookupKV_setKV ps k v
    by_cases hp : (p.1 == k) = true
    · have hp' : p.1 = k := by simpa using hp
      simp [setKV, lookupKV, List.any_cons, hp']
    · by_cases ha : ps.any (fun q => q.1 == k) = true
      · simp only [setKV, List.any_cons, hp, Bool.false_or, ha, if_true, List.map_cons,
          lookupKV]
        rw [if_neg (by simp [hp])]
        simp only [setKV, ha, if_true] at ih
        exact ih
      · simp only [setKV, List.any_cons, hp, Bool.false_or, ha, if_false, List.cons_append,
          lookupKV]
        rw [if_neg (by simp [hp])]
        simp only [setKV, ha, if_false] at ih
        exact ih

/-- C5 (amended): when the stored value under "theme" agrees with the current
mode (or the store is unavailable) and the toggle button's label agrees with
the current mode (or the button is absent), two `toggleTheme` calls restore
the persisted value, the button label and the mode; and after a single call
the label (when the button exists) names the opposite of the now-current
mode, whose name it textually contains. -/
theorem toggleTheme_twice_restores (st : PageState)
    (hstore : st.storage = none ∨ ∃ kv, st.storage = some kv ∧
      lookupKV kv "theme" = some (themeVal st.lightTheme))
    (hbtn : st.themeButton = none ∨ st.themeButton = some (themeButtonHTML st.lightTheme)) :
    storedTheme (toggleTheme (toggleTheme st)) = storedTheme st ∧
    (toggleTheme (toggleTheme st)).themeButton = st.themeButton ∧
    (toggleTheme (toggleTheme st)).lightTheme = st.lightTheme ∧
    ((toggleTheme st).themeButton = none ∨
      (toggleTheme st).themeButton = some (themeButtonHTML (!st.lightTheme))) ∧
    ((toggleTheme st).lightTheme = !st.lightTheme) ∧
    (∀ b : Bool, strIncludes (themeButtonHTML b)
      ("Switch to " ++ (if b then "Dark" else "Light") ++ " Theme") = true) := by
  rcases hstore with hs | ⟨kv, hs, hlook⟩ <;> rcases hbtn with hb | hb
  · refine ⟨?_, ?_, ?_, ?_, ?_, ?_⟩ <;>
      simp [toggleTheme, updateThemeButton, storedTheme, hs, hb, Bool.not_not]
    exact ⟨by decide, by decide⟩
  · refine ⟨?_, ?_, ?_, ?_, ?_, ?_⟩ <;>
      simp [toggleTheme, updateThemeButton, storedTheme, hs, hb, Bool.not_not]
    exact ⟨by decide, by decide⟩
  · refine ⟨?_, ?_, ?_, ?_, ?_, ?_⟩ <;>
      simp [toggleTheme, updateThemeButton, storedTheme, hs, hb, Bool.not_not,
        lookupKV_setKV, hlook]
    exact ⟨by decide, by decide⟩
  · refine ⟨?_, ?_, ?_, ?_, ?_, ?_⟩ <;>
      simp [toggleTheme, updateThemeButton, storedTheme, hs, hb, Bool.not_not,
        lookupKV_setKV, hlook]
    exact ⟨by decide, by decide⟩

theorem toggleTheme_twice_restores_witness :
    storedTheme (toggleTheme (toggleTheme graphPage)) = storedTheme graphPage ∧
    (toggleTheme (toggleTheme graphPage)).themeButton = graphPage.themeButton ∧
    (toggleTheme (toggleTheme graphPage)).lightTheme = graphPage.lightTheme := by
  obtain ⟨h1, h2, h3, _, _, _⟩ :=
    toggleTheme_twice_restores graphPage (Or.inl rfl) (Or.inl rfl)
  exact ⟨h1, h2, h3⟩

-- ----- Info panel toggle (C7) ----- --

/-- One consistent `toggleInfoBox` call flips to the other determined state. -/
theorem toggleInfoBox_consistent (st : PageState) (h0 : Bool)
    (hi : st.infoBox = some h0) (hb : st.infoToggleBtn = some (infoBtnFor h0)) :
    toggleInfoBox st =
      { st with infoBox := some (!h0), infoToggleBtn := some (infoBtnFor (!h0)) } := by
  unfold toggleInfoBox
  rw [hi, hb]

/-- Two consistent `toggleInfoBox` calls are the identity. -/
theorem toggleInfoBox_twice (st : PageState) (h0 : Bool)
    (hi : st.infoBox = some h0) (hb : st.infoToggleBtn = some (infoBtnFor h0)) :
    toggleInfoBox (toggleInfoBox st) = st := by
  rw [toggleInfoBox_consistent st h0 hi hb,
    toggleInfoBox_consistent _ (!h0) rfl rfl, Bool.not_not]
  rw [← hi, ← hb]

theorem toggleInfoBox_iter (st : PageState) (h0 : Bool)
    (hi : st.infoBox = some h0) (hb : st.infoToggleBtn = some (infoBtnFor h0)) :
    ∀ n : Nat,
      (n % 2 = 0 → toggleInfoBox^[n] st = st) ∧
      (n % 2 = 1 → toggleInfoBox^[n] st =
        { st with infoBox := some (!h0), infoToggleBtn := some (infoBtnFor (!h0)) })
  | 0 => ⟨fun _ => rfl, fun hc => by simp at hc⟩
  | 1 => ⟨fun hc => by simp at hc, fun _ => by
      rw [Function.iterate_one]
      exact toggleInfoBox_consistent st h0 hi hb⟩
  | n + 2 => by
    obtain ⟨ih0, ih1⟩ := toggleInfoBox_iter st h0 hi hb n
    constructor
    · intro hmod
      have hn : n % 2 = 0 := by omega
      rw [show n + 2 = n + 1 + 1 from rfl, Function.iterate_succ_apply',
        Function.iterate_succ_apply', ih0 hn]
      exact toggleInfoBox_twice st h0 hi hb
    · intro hmod
      have hn : n % 2 = 1 := by omega
      rw [show n + 2 = n + 1 + 1 from rfl, Function.iterate_succ_apply',
        Function.iterate_succ_apply', ih1 hn]
      exact toggleInfoBox_twice _ (!h0) rfl rfl

/-- C7: when the info panel and its toggle control both exist (in one of the
two determined states), an even number of `toggleInfoBox` calls leaves the
panel's hidden state and the toggle button's icon and title equal to their
initial values, and an odd number of calls inverts the hidden state and
switches the button to the other fully determined state. -/
theorem toggleInfoBox_parity (st : PageState) (h0 : Bool)
    (hi : st.infoBox = some h0) (hb : st.infoToggleBtn = some (infoBtnFor h0)) (n : Nat) :
    (n % 2 = 0 → (toggleInfoBox^[n] st).infoBox = some h0 ∧
      (toggleInfoBox^[n] st).infoToggleBtn = some (infoBtnFor h0)) ∧
    (n % 2 = 1 → (toggleInfoBox^[n] st).infoBox = some (!h0) ∧
      (toggleInfoBox^[n] st).infoToggleBtn = some (infoBtnFor (!h0))) := by
  obtain ⟨he, ho⟩ := toggleInfoBox_iter st h0 hi hb n
  constructor
  · intro h
    rw [he h]
    exact ⟨hi, hb⟩
  · intro h
    rw [ho h]
    exact ⟨rfl, rfl⟩

theorem toggleInfoBox_parity_witness :
    ((toggleInfoBox^[2] infoPage).infoBox = some true ∧
      (toggleInfoBox^[2] infoPage).infoToggleBtn = some (infoBtnFor true)) ∧
    ((toggleInfoBox^[3] infoPage).infoBox = some false ∧
      (toggleInfoBox^[3] infoPage).infoToggleBtn = some (infoBtnFor false)) :=
  ⟨(toggleInfoBox_parity infoPage true rfl rfl 2).1 rfl,
   (toggleInfoBox_parity infoPage true rfl rfl 3).2 rfl⟩

-- ----- Icon injection (C4) ----- --

theorem sGo_append : ∀ (a b : List Char) (t : Bool),
    sGo (a ++ b) t = sGo a t ++ sGo b (tagSt a t)
  | [], b, t => rfl
  | c :: cs, b, t => by
    by_cases h1 : (c == '<') = true
    · simp [sGo, tagSt, h1, sGo_append cs b true]
    · by_cases h2 : (c == '>') = true
      · simp [sGo, tagSt, h1, h2, sGo_append cs b false]
      · cases t
        · simp [sGo, tagSt, h1, h2, sGo_append cs b false]
        · simp [sGo, tagSt, h1, h2, sGo_append cs b true]

/-- The scanner is the identity on text without angle brackets. -/
theorem sGo_clean : ∀ (l : List Char), (∀ c ∈ l, c ≠ '<' ∧ c ≠ '>') → sGo l false = l
  | [], _ => rfl
  | c :: cs, h => by
    obtain ⟨h1, h2⟩ := h c (by simp)
    have hb1 : (c == '<') = false := beq_eq_false_iff_ne.mpr h1
    have hb2 : (c == '>') = false := beq_eq_false_iff_ne.mpr h2
    simp [sGo, hb1, hb2, sGo_clean cs (fun x hx => h x (by simp [hx]))]

theorem jsTrim_space_cons (l : List Char) : jsTrim ⟨' ' :: l⟩ = jsTrim ⟨l⟩ := by
  have hws : isWs ' ' = true := rfl
  simp [jsTrim, trimChars, List.dropWhile_cons, hws]

/-- The markup injected around an icon contributes exactly one space of text
content (the trailing separator), for every icon of the registry, and leaves
the scanner outside a tag. -/
theorem svgIcons_text_trivial :
    ∀ kv ∈ svgIcons,
      sGo ("<span class=\"button-icon\">" ++ kv.2 ++ "</span> ").data false = [' '] ∧
      tagSt ("<span class=\"button-icon\">" ++ kv.2 ++ "</span> ").data false = false := by
  set_option maxRecDepth 40000 in decide

theorem stripTags_iconHTML (svg t : String)
    (hsvg : sGo ("<span class=\"button-icon\">" ++ svg ++ "</span> ").data false = [' '] ∧
      tagSt ("<span class=\"button-icon\">" ++ svg ++ "</span> ").data false = false)
    (ht : ∀ c ∈ t.data, c ≠ '<' ∧ c ≠ '>') :
    stripTags (iconHTML svg t) = ⟨' ' :: t.data⟩ := by
  have hdata : (iconHTML svg t).data =
      ("<span class=\"button-icon\">" ++ svg ++ "</span> ").data ++ t.data := rfl
  unfold stripTags
  rw [hdata, sGo_append, hsvg.1, hsvg.2, sGo_clean t.data ht]
  exact rfl

theorem lookupKV_none_all : ∀ (bs : List (String × String)) (i : String),
    lookupKV bs i = none → ∀ p ∈ bs, (p.1 == i) = false
  | [], _, _ => by simp
  | p :: ps, i, h => by
    by_cases hp : (p.1 == i) = true
    · simp [lookupKV, hp] at h
    · intro q hq
      rcases List.mem_cons.mp hq with rfl | hq'
      · cases hpf : (q.1 == i)
        · rfl
        · exact absurd hpf hp
      · have h' : lookupKV ps i = none := by simpa [lookupKV, hp] using h
        exact lookupKV_none_all ps i h' q hq'

theorem setFirst_map : ∀ (bs : List (String × String)) (i : String) (f : String → String),
    (bs.map Prod.fst).Nodup → ∀ cur : String, lookupKV bs i = some cur →
    setFirst bs i (f cur) = bs.map (fun p => if p.1 == i then (p.1, f p.2) else p)
  | [], i, f, _, cur, h => by simp [lookupKV] at h
  | p :: ps, i, f, hnd, cur, h => by
    by_cases hp : (p.1 == i) = true
    · have hcur : cur = p.2 := by
        have hx := h
        simp [lookupKV, hp] at hx
        exact hx.symm
      have hpi : p.1 = i := by simpa using hp
      have hnotail : ∀ q ∈ ps, (q.1 == i) = false := by
        intro q hq
        have hnin := (List.nodup_cons.mp hnd).1
        have hne : q.1 ≠ i := by
          intro heq
          exact hnin (by
            rw [← hpi] at heq
            exact heq ▸ List.mem_map.mpr ⟨q, hq, rfl⟩)
        exact beq_eq_false_iff_ne.mpr hne
      subst hcur
      simp only [setFirst, hp, if_true, List.map_cons]
      congr 1
      symm
      calc ps.map (fun p => if p.1 == i then (p.1, f p.2) else p)
          = ps.map id := listMapCongr (fun q hq => by simp [hnotail q hq])
        _ = ps := List.map_id ps
    · have h' : lookupKV ps i = some cur := by simpa [lookupKV, hp] using h
      have hndt : (ps.map Prod.fst).Nodup := (List.nodup_cons.mp hnd).2
      simp only [setFirst, hp, Bool.false_eq_true, if_false, List.map_cons]
      rw [setFirst_map ps i f hndt cur h']

theorem applyStep_map (bs : List (String × String)) (kv : String × String)
    (hnd : (bs.map Prod.fst).Nodup) :
    applyStep bs kv = bs.map (stepFun kv) := by
  unfold applyStep stepFun
  cases h : lookupKV bs ("btn-" ++ kv.1) with
  | none =>
    have hall := lookupKV_none_all bs _ h
    symm
    calc bs.map _ = bs.map id := listMapCongr (fun p hp => by simp [hall p hp])
      _ = bs := List.map_id bs
  | some cur =>
    exact setFirst_map bs _ (fun c => iconHTML kv.2 (jsTrim (stripTags c))) hnd cur h

theorem keyIcon_none_of_not_mem : ∀ (ks : List (String × String)) (i : String),
    (∀ kv ∈ ks, ("btn-" ++ kv.1) ≠ i) → keyIcon ks i = none
  | [], _, _ => rfl
  | kv :: rest, i, h => by
    have hb : (("btn-" ++ kv.1) == i) = false := beq_eq_false_iff_ne.mpr (h kv (by simp))
    simp [keyIcon, hb, keyIcon_none_of_not_mem rest i (fun q hq => h q (by simp [hq]))]

theorem keyIcon_mem : ∀ (ks : List (String × String)) (i svg : String),
    keyIcon ks i = some svg → ∃ kv ∈ ks, kv.2 = svg
  | [], i, svg, h => by simp [keyIcon] at h
  | kv :: rest, i, svg, h => by
    by_cases hp : (("btn-" ++ kv.1) == i) = true
    · refine ⟨kv, by simp, ?_⟩
      simp [keyIcon, hp] at h
      exact h
    · have h' : keyIcon rest i = some svg := by simpa [keyIcon, hp] using h
      obtain ⟨q, hq, hq2⟩ := keyIcon_mem rest i svg h'
      exact ⟨q, by simp [hq], hq2⟩

theorem stepFun_fst (kv p : String × String) : (stepFun kv p).1 = p.1 := by
  unfold stepFun
  split <;> rfl

theorem fold_applyStep_map : ∀ (ks : List (String × String)) (bs : List (String × String)),
    (bs.map Prod.fst).Nodup →
    (ks.map (fun kv => "btn-" ++ kv.1)).Nodup →
    ks.foldl applyStep bs = bs.map (iconTrans ks)
  | [], bs, _, _ => by
    simp only [List.foldl_nil]
    symm
    calc bs.map (iconTrans []) = bs.map id := listMapCongr (fun p _ => rfl)
      _ = bs := List.map_id bs
  | kv :: rest, bs, hnd, hknd => by
    rw [List.foldl_cons, applyStep_map bs kv hnd]
    have hfst : Prod.fst ∘ stepFun kv = (Prod.fst : String × String → String) :=
      funext fun p => stepFun_fst kv p
    have hnd' : ((bs.map (stepFun kv)).map Prod.fst).Nodup := by
      rw [List.map_map, hfst]
      exact hnd
    have hknd' : ((rest.map (fun kv => "btn-" ++ kv.1))).Nodup :=
      (List.nodup_cons.mp hknd).2
    rw [fold_applyStep_map rest (bs.map (stepFun kv)) hnd' hknd', List.map_map]
    apply listMapCongr
    intro p _
    show iconTrans rest (stepFun kv p) = iconTrans (kv :: rest) p
    by_cases hp : (p.1 == ("btn-" ++ kv.1)) = true
    · have hpi : p.1 = "btn-" ++ kv.1 := by simpa using hp
      have hhead : (("btn-" ++ kv.1) == p.1) = true := by simp [hpi]
      have hnone : keyIcon rest p.1 = none := by
        apply keyIcon_none_of_not_mem
        intro q hq heq
        exact (List.nodup_cons.mp hknd).1
          (by
            show ("btn-" ++ kv.1) ∈ rest.map (fun kv => "btn-" ++ kv.1)
            rw [← hpi, ← heq]
            exact List.mem_map.mpr ⟨q, hq, rfl⟩)
      unfold stepFun
      rw [if_pos hp]
      unfold iconTrans
      simp only [keyIcon, hhead, if_true, hnone]
    · have hhead : (("btn-" ++ kv.1) == p.1) = false := by
        cases hx : (("btn-" ++ kv.1) == p.1)
        · rfl
        · exfalso
          apply hp
          have hxe : "btn-" ++ kv.1 = p.1 := by simpa using hx
          simp [hxe]
      unfold stepFun
      rw [if_neg hp]
      unfold iconTrans
      simp only [keyIcon, hhead, Bool.false_eq_true, if_false]

theorem svgKeys_nodup : (svgIcons.map (fun kv => "btn-" ++ kv.1)).Nodup := by decide

/-- C4 (amended): `applyIcons` IS idempotent on pages whose button contents
start as plain trimmed text (the shipped pages): after the first call leaves
`<icon> <original text>`, a second call re-reads exactly the original text —
the injected icon markup contributes no text content — and rewrites identical
content, so it reproduces the state left by the first call and duplicates
nothing. -/
theorem applyIcons_idem (st : PageState)
    (hnd : (st.buttons.map Prod.fst).Nodup)
    (hplain : ∀ p ∈ st.buttons, plainContent p.2) :
    applyIcons (applyIcons st) = applyIcons st := by
  show ({ st with buttons := svgIcons.foldl applyStep (svgIcons.foldl applyStep st.buttons) }
      : PageState) = { st with buttons := svgIcons.foldl applyStep st.buttons }
  have hbtns : svgIcons.foldl applyStep (svgIcons.foldl applyStep st.buttons)
      = svgIcons.foldl applyStep st.buttons := by
    rw [fold_applyStep_map svgIcons st.buttons hnd svgKeys_nodup]
    have hfst : Prod.fst ∘ iconTrans svgIcons = (Prod.fst : String × String → String) :=
      funext fun p => by
        show (iconTrans svgIcons p).1 = p.1
        unfold iconTrans
        split <;> rfl
    have hnd2 : ((st.buttons.map (iconTrans svgIcons)).map Prod.fst).Nodup := by
      rw [List.map_map, hfst]
      exact hnd
    rw [fold_applyStep_map svgIcons _ hnd2 svgKeys_nodup, List.map_map]
    apply listMapCongr
    intro p hp
    show iconTrans svgIcons (iconTrans svgIcons p) = iconTrans svgIcons p
    obtain ⟨hpl, hptr⟩ := hplain p hp
    have happ : ∀ (q : String × String) (svg : String), keyIcon svgIcons q.1 = some svg →
        iconTrans svgIcons q = (q.1, iconHTML svg (jsTrim (stripTags q.2))) := by
      intro q svg hq
      unfold iconTrans
      rw [hq]
    cases hk : keyIcon svgIcons p.1 with
    | none =>
      have hid : iconTrans svgIcons p = p := by
        unfold iconTrans
        rw [hk]
      rw [hid]
      exact hid
    | some svg =>
      have hstrip : stripTags p.2 = p.2 := by
        unfold stripTags
        rw [sGo_clean p.2.data hpl]
      have hfirst : jsTrim (stripTags p.2) = p.2 := by rw [hstrip]; exact hptr
      obtain ⟨kv, hkvmem, rfl⟩ := keyIcon_mem svgIcons p.1 svg hk
      have htriv := svgIcons_text_trivial kv hkvmem
      have hsecond : jsTrim (stripTags (iconHTML kv.2 p.2)) = p.2 := by
        rw [stripTags_iconHTML kv.2 p.2 htriv hpl, jsTrim_space_cons]
        exact hptr
      rw [happ p kv.2 hk, hfirst, happ (p.1, iconHTML kv.2 p.2) kv.2 hk]
      show (p.1, iconHTML kv.2 (jsTrim (stripTags (iconHTML kv.2 p.2))))
          = (p.1, iconHTML kv.2 p.2)
      rw [hsecond]
  rw [hbtns]

/-- C4 counterexample: on a concrete page whose `btn-theme` control holds
`<icon> Theme` after the first `applyIcons` call, the second call reproduces
exactly the state left by the first — the icon glyph is not re-prepended or
duplicated — refuting the claimed non-idempotency. -/
theorem applyIcons_counterexample :
    lookupKV (applyIcons iconPage).buttons "btn-theme" = some (iconHTML svgTheme "Theme") ∧
    applyIcons (applyIcons iconPage) = applyIcons iconPage := by
  constructor
  · set_option maxRecDepth 40000 in decide
  · set_option maxRecDepth 40000 in decide

theorem applyIcons_idem_witness :
    applyIcons (applyIcons iconPage) = applyIcons iconPage :=
  applyIcons_idem iconPage (by decide) (by
    intro p hp
    have hcases : p = ("btn-theme", "Theme") ∨ p = ("btn-png", "PNG") := by
      simpa [iconPage, emptyPage] using hp
    rcases hcases with rfl | rfl
    · exact ⟨by decide, by decide⟩
    · exact ⟨by decide, by decide⟩)
